import Mathlib

/-!
Verification of movies-crud-api/main.go.

A shallow embedding of the movie service: the two record types, the package
level slice `movies`, the five HTTP handlers and the seeding done by `main`.

The handlers are state transformers on a `World`, which holds the global
slice, the response writer of the request being served and the ordered trace
of the effects performed so far.  The calls the handlers make into
`net/http`, `encoding/json` and `gorilla/mux` are modelled by the small
definitions of the first sections, one per library entry point.
-/

namespace MoviesCrudApi

/-! ## Data model (main.go, lines 18-30) -/

/-- Go struct `Director`. -/
structure Director where
  Firstname : String
  Lastname : String
deriving DecidableEq, Repr

/-- Go struct `Movie`; the field of type `*Director` is `none` for a nil pointer. -/
structure Movie where
  ID : String
  ISBN : String
  Title : String
  Director : Option Director
deriving DecidableEq, Repr

/-! ## encoding/json -/

/-- JSON values, as far as the service produces them. -/
inductive JSON where
  | null
  | str (s : String)
  | arr (elems : List JSON)
  | obj (members : List (String × JSON))

/-- The Go values the encoder is handed, as it sees them through reflection.
A struct is the list of its fields in declaration order, each with its Go
name, the name given by its json struct tag (empty when there is none) and
its value.  A slice value stands for a non-nil slice: the handlers run only
after `main` has appended to `movies`, and neither `append` nor re-slicing a
non-nil slice yields nil. -/
inductive GoValue where
  | string (s : String)
  | ptr (target : Option GoValue)
  | struct (fields : List (String × String × GoValue))
  | slice (elems : List GoValue)

mutual
/-- The JSON value `encoding/json` produces for a Go value: a string becomes a
JSON string, a nil pointer `null`, a non-nil pointer the encoding of what it
points to, a struct an object with one member per field keyed by the tag name
(the Go field name when the tag gives none), a slice an array. -/
def Marshal : GoValue → JSON
  | .string s => .str s
  | .ptr none => .null
  | .ptr (some v) => Marshal v
  | .struct fs => .obj (MarshalFields fs)
  | .slice vs => .arr (MarshalElems vs)
/-- Members of the object for a struct, in field order. -/
def MarshalFields : List (String × String × GoValue) → List (String × JSON)
  | [] => []
  | (name, tag, v) :: fs =>
    ((if tag = "" then name else tag), Marshal v) :: MarshalFields fs
/-- Elements of the array for a slice, in index order. -/
def MarshalElems : List GoValue → List JSON
  | [] => []
  | v :: vs => Marshal v :: MarshalElems vs
end

/-- Reflection view of a `Director` (fields and tags of lines 25-28). -/
def Director.reflect (d : Director) : GoValue :=
  .struct [("Firstname", "firstname", .string d.Firstname),
           ("Lastname", "lastname", .string d.Lastname)]

/-- Reflection view of a `Movie` (fields and tags of lines 18-23). -/
def Movie.reflect (m : Movie) : GoValue :=
  .struct [("ID", "id", .string m.ID),
           ("ISBN", "isbn", .string m.ISBN),
           ("Title", "title", .string m.Title),
           ("Director", "director", .ptr (m.Director.map Director.reflect))]

/-- Reflection view of a `[]Movie`. -/
def reflectMovies (ms : List Movie) : GoValue :=
  .slice (ms.map Movie.reflect)

/-! ## net/http and gorilla/mux -/

/-- One write to the response body.  `json v` is what `Encoder.Encode` emits
for a value whose JSON is `v` (the JSON text followed by a newline); `line s`
is what `fmt.Fprintln` emits for `s` (the text followed by a newline). -/
inductive Chunk where
  | json (v : JSON)
  | line (s : String)

/-- Effects on the response writer and on the global slice, in program order. -/
inductive Event where
  | headerSet (key value : String)
  | headerDel (key : String)
  | loadMovies
  | storeMovies
  | writeHeader (code : Nat)
  | write (c : Chunk)

/-- State of an `http.ResponseWriter`: the header map, the status code once
the header has been written, and the body written so far. -/
structure ResponseWriter where
  header : List (String × String)
  status : Option Nat
  body : List Chunk

/-- What a handler can see of an `*http.Request`: the route variables that
`mux.Vars` returns, and the request body. -/
structure Request where
  vars : List (String × String)
  body : String

/-- The process state a handler runs in. -/
structure World where
  movies : List Movie
  w : ResponseWriter
  trace : List Event

def StatusOK : Nat := 200

def StatusNotFound : Nat := 404

/-- Go's `w.Header().Set(key, value)`: replaces whatever the key held. -/
def Header_Set (key value : String) (σ : World) : World :=
  { σ with
    w := { σ.w with header := (key, value) :: σ.w.header.filter (fun kv => kv.1 ≠ key) }
    trace := σ.trace ++ [.headerSet key value] }

/-- Go's `w.Header().Del(key)`. -/
def Header_Del (key : String) (σ : World) : World :=
  { σ with
    w := { σ.w with header := σ.w.header.filter (fun kv => kv.1 ≠ key) }
    trace := σ.trace ++ [.headerDel key] }

/-- Go's `w.Header().Get(key)`: the value held under the key, the empty string
when there is none. -/
def Header_Get (key : String) (σ : World) : String :=
  match σ.w.header.find? (fun kv => kv.1 = key) with
  | some kv => kv.2
  | none => ""

/-- Go's `w.WriteHeader(code)`: fixes the status; a second call is ignored. -/
def WriteHeader (code : Nat) (σ : World) : World :=
  { σ with
    w := { σ.w with status := some (σ.w.status.getD code) }
    trace := σ.trace ++ [.writeHeader code] }

/-- Go's `w.Write`: writes the header with status 200 first if no header has
been written yet, then appends to the body. -/
def Write (c : Chunk) (σ : World) : World :=
  let σ := if σ.w.status.isNone then WriteHeader StatusOK σ else σ
  { σ with
    w := { σ.w with body := σ.w.body ++ [c] }
    trace := σ.trace ++ [.write c] }

/-- Go's `json.NewEncoder(w).Encode(v)`. -/
def Encode (v : GoValue) (σ : World) : World :=
  Write (.json (Marshal v)) σ

/-- Go's `http.Error(w, msg, code)`. -/
def http_Error (msg : String) (code : Nat) (σ : World) : World :=
  let σ := Header_Del "Content-Length" σ
  let σ := Header_Set "Content-Type" "text/plain; charset=utf-8" σ
  let σ := Header_Set "X-Content-Type-Options" "nosniff" σ
  let σ := WriteHeader code σ
  Write (.line msg) σ

/-- Go's `mux.Vars(r)`. -/
def mux_Vars (r : Request) : List (String × String) :=
  r.vars

/-- Indexing a Go `map[string]string`: the zero value for a missing key. -/
def mapIndex (m : List (String × String)) (key : String) : String :=
  match m.find? (fun kv => kv.1 = key) with
  | some kv => kv.2
  | none => ""

/-- A read of the global `movies`. -/
def loadMovies (σ : World) : List Movie × World :=
  (σ.movies, { σ with trace := σ.trace ++ [.loadMovies] })

/-- An assignment to the global `movies`. -/
def storeMovies (ms : List Movie) (σ : World) : World :=
  { σ with movies := ms, trace := σ.trace ++ [.storeMovies] }

/-! ## The handlers (main.go, lines 32-85) -/

def createMovie (_r : Request) (σ : World) : World :=
  Header_Set "Content-Type" "application/json" σ

def getMovies (_r : Request) (σ : World) : World :=
  let σ := Header_Set "Content-Type" "application/json" σ
  let (ms, σ) := loadMovies σ
  Encode (reflectMovies ms) σ

/-- The range loop of `getMovie` over the items still to visit: `some` is the
state at the `return` inside the loop, `none` means the loop ran off the end. -/
def getMovie_loop (params : List (String × String)) : List Movie → World → Option World
  | [], _ => none
  | item :: rest, σ =>
    if item.ID = mapIndex params "id" then
      some (Encode item.reflect σ)
    else
      getMovie_loop params rest σ

def getMovie (r : Request) (σ : World) : World :=
  let σ := Header_Set "Content-Type" "application/json" σ
  let params := mux_Vars r
  let (ms, σ) := loadMovies σ
  match getMovie_loop params ms σ with
  | some σ => σ
  | none => http_Error "No movie found with the given ID" StatusNotFound σ

def updateMovie (_r : Request) (σ : World) : World :=
  Header_Set "Content-Type" "application/json" σ

/-- The range loop of `deleteMovie`, at position `index`, over the items still
to visit.  On a match the global is reassigned
`append(movies[:index], movies[index+1:]...)` and the loop is left. -/
def deleteMovie_loop (params : List (String × String)) : Nat → List Movie → World → World
  | _, [], σ => σ
  | index, item :: rest, σ =>
    if item.ID = mapIndex params "id" then
      let (front, σ) := loadMovies σ
      let (back, σ) := loadMovies σ
      storeMovies (front.take index ++ back.drop (index + 1)) σ
    else
      deleteMovie_loop params (index + 1) rest σ

def deleteMovie (r : Request) (σ : World) : World :=
  let σ := Header_Set "Content-Type" "application/json" σ
  let params := mux_Vars r
  let (ms, σ) := loadMovies σ
  let σ := deleteMovie_loop params 0 ms σ
  let (ms, σ) := loadMovies σ
  Encode (reflectMovies ms) σ

/-! ## Startup (main.go, lines 87-109) and request serving -/

/-- The process state before `main` runs: `movies` is the zero value. -/
def World.init : World :=
  { movies := [], w := { header := [], status := none, body := [] }, trace := [] }

/-- The part of `main` that runs before the server starts listening: the two
seed appends. -/
def main (σ : World) : World :=
  let (ms, σ) := loadMovies σ
  let σ := storeMovies (ms ++ [{
    ID := "1",
    ISBN := "12345678",
    Title := "Movie One",
    Director := some {
      Firstname := "John",
      Lastname := "Doe" } }]) σ
  let (ms, σ) := loadMovies σ
  storeMovies (ms ++ [{
    ID := "2",
    ISBN := "87654321",
    Title := "Movie Two",
    Director := some {
      Firstname := "Jane",
      Lastname := "Doe" } }]) σ

/-- The store at the moment the server starts listening. -/
def seeded : List Movie :=
  (main World.init).movies

/-- The server finishing a request: a handler that returned without writing
gets the header written with status 200. -/
def finishRequest (σ : World) : World :=
  if σ.w.status.isNone then WriteHeader StatusOK σ else σ

/-- The state in which a handler is entered: the store as it stands, a response
writer nothing has been written to, an empty trace. -/
def World.fresh (ms : List Movie) : World :=
  { movies := ms, w := { header := [], status := none, body := [] }, trace := [] }

/-- One request served by handler `h` on store `ms`: a fresh response writer,
the handler, then the server finishing the response. -/
def serve (h : Request → World → World) (ms : List Movie) (r : Request) : World :=
  finishRequest (h r (World.fresh ms))

/-- A request matched by a route with the path variable `id`. -/
def requestFor (id : String) : Request :=
  { vars := [("id", id)], body := "" }

/-- The identifiers of a store are pairwise distinct. -/
def UniqueIDs (ms : List Movie) : Prop :=
  (ms.map Movie.ID).Nodup

instance (ms : List Movie) : Decidable (UniqueIDs ms) := by
  unfold UniqueIDs; infer_instance

/-! ## Facts about the library model -/

@[simp] theorem World.fresh_movies (ms : List Movie) : (World.fresh ms).movies = ms := rfl

@[simp] theorem World.fresh_header (ms : List Movie) : (World.fresh ms).w.header = [] := rfl

@[simp] theorem World.fresh_status (ms : List Movie) : (World.fresh ms).w.status = none := rfl

@[simp] theorem World.fresh_body (ms : List Movie) : (World.fresh ms).w.body = [] := rfl

@[simp] theorem World.fresh_trace (ms : List Movie) : (World.fresh ms).trace = [] := rfl

theorem Write_movies (c : Chunk) (σ : World) : (Write c σ).movies = σ.movies := by
  unfold Write WriteHeader; split <;> rfl

theorem Write_status (c : Chunk) (σ : World) :
    (Write c σ).w.status = some (σ.w.status.getD StatusOK) := by
  unfold Write WriteHeader
  cases h : σ.w.status <;> simp [h]

theorem Write_body (c : Chunk) (σ : World) : (Write c σ).w.body = σ.w.body ++ [c] := by
  unfold Write WriteHeader; split <;> rfl

theorem Write_header (c : Chunk) (σ : World) : (Write c σ).w.header = σ.w.header := by
  unfold Write WriteHeader; split <;> rfl

theorem Write_trace (c : Chunk) (σ : World) :
    (Write c σ).trace =
      σ.trace ++ ((if σ.w.status.isNone then [Event.writeHeader StatusOK] else []) ++ [.write c]) := by
  unfold Write WriteHeader; split <;> simp

/-! ## The loops -/

theorem getMovie_loop_none (params : List (String × String)) (ms : List Movie) (σ : World)
    (h : ∀ m ∈ ms, m.ID ≠ mapIndex params "id") : getMovie_loop params ms σ = none := by
  induction ms with
  | nil => rfl
  | cons m ms ih =>
    have hm : m.ID ≠ mapIndex params "id" := h m (List.mem_cons_self _ _)
    simp only [getMovie_loop, if_neg hm]
    exact ih (fun x hx => h x (List.mem_cons_of_mem _ hx))

theorem getMovie_loop_first (params : List (String × String)) (pre post : List Movie)
    (m : Movie) (σ : World) (hpre : ∀ x ∈ pre, x.ID ≠ mapIndex params "id")
    (hm : m.ID = mapIndex params "id") :
    getMovie_loop params (pre ++ m :: post) σ = some (Encode m.reflect σ) := by
  induction pre with
  | nil => simp [getMovie_loop, hm]
  | cons x pre ih =>
    have hx : x.ID ≠ mapIndex params "id" := hpre x (List.mem_cons_self _ _)
    simp only [List.cons_append, getMovie_loop, if_neg hx]
    exact ih (fun y hy => hpre y (List.mem_cons_of_mem _ hy))

/-- A store holding a record with identifier `id` splits at the first one. -/
theorem exists_first_match (id : String) (ms : List Movie) (h : ∃ m ∈ ms, m.ID = id) :
    ∃ pre m post, ms = pre ++ m :: post ∧ (∀ x ∈ pre, x.ID ≠ id) ∧ m.ID = id := by
  induction ms with
  | nil => simp at h
  | cons a ms ih =>
    by_cases ha : a.ID = id
    · exact ⟨[], a, ms, rfl, by simp, ha⟩
    · have h2 : ∃ m ∈ ms, m.ID = id := by
        obtain ⟨m, hm, hid⟩ := h
        rcases List.mem_cons.mp hm with rfl | hm
        · exact absurd hid ha
        · exact ⟨m, hm, hid⟩
      obtain ⟨pre, m, post, rfl, hpre, hm⟩ := ih h2
      refine ⟨a :: pre, m, post, rfl, ?_, hm⟩
      intro x hx
      rcases List.mem_cons.mp hx with rfl | hx
      · exact ha
      · exact hpre x hx

theorem deleteMovie_loop_w (params : List (String × String)) (rest : List Movie) (index : Nat)
    (σ : World) : (deleteMovie_loop params index rest σ).w = σ.w := by
  induction rest generalizing index with
  | nil => rfl
  | cons m rest ih =>
    unfold deleteMovie_loop
    split
    · rfl
    · exact ih _

theorem deleteMovie_loop_absent (params : List (String × String)) (rest : List Movie)
    (index : Nat) (σ : World) (h : ∀ m ∈ rest, m.ID ≠ mapIndex params "id") :
    (deleteMovie_loop params index rest σ).movies = σ.movies := by
  induction rest generalizing index with
  | nil => rfl
  | cons m rest ih =>
    have hm : m.ID ≠ mapIndex params "id" := h m (List.mem_cons_self _ _)
    simp only [deleteMovie_loop, if_neg hm]
    exact ih _ (fun x hx => h x (List.mem_cons_of_mem _ hx))

theorem deleteMovie_loop_first (params : List (String × String)) (seen pre post : List Movie)
    (m : Movie) (σ : World) (hσ : σ.movies = seen ++ pre ++ m :: post)
    (hpre : ∀ x ∈ pre, x.ID ≠ mapIndex params "id") (hm : m.ID = mapIndex params "id") :
    (deleteMovie_loop params seen.length (pre ++ m :: post) σ).movies = seen ++ pre ++ post := by
  induction pre generalizing seen with
  | nil =>
    simp only [List.nil_append, deleteMovie_loop, if_pos hm, loadMovies, storeMovies]
    simp at hσ
    simp [hσ]
  | cons x pre ih =>
    have hx : x.ID ≠ mapIndex params "id" := hpre x (List.mem_cons_self _ _)
    simp only [List.cons_append, deleteMovie_loop, if_neg hx]
    have := ih (seen ++ [x]) (by simp [hσ]) (fun y hy => hpre y (List.mem_cons_of_mem _ hy))
    simpa using this


/-! ## The handlers, path by path -/

theorem getMovie_absent (r : Request) (σ : World)
    (h : ∀ m ∈ σ.movies, m.ID ≠ mapIndex (mux_Vars r) "id") :
    getMovie r σ =
      http_Error "No movie found with the given ID" StatusNotFound
        (loadMovies (Header_Set "Content-Type" "application/json" σ)).2 := by
  have hnone := getMovie_loop_none (mux_Vars r) σ.movies
    (loadMovies (Header_Set "Content-Type" "application/json" σ)).2 h
  simp only [getMovie, loadMovies, Header_Set] at hnone ⊢
  rw [hnone]

theorem getMovie_present (r : Request) (σ : World) (pre post : List Movie) (m : Movie)
    (hσ : σ.movies = pre ++ m :: post)
    (hpre : ∀ x ∈ pre, x.ID ≠ mapIndex (mux_Vars r) "id")
    (hm : m.ID = mapIndex (mux_Vars r) "id") :
    getMovie r σ =
      Encode m.reflect (loadMovies (Header_Set "Content-Type" "application/json" σ)).2 := by
  have hsome := getMovie_loop_first (mux_Vars r) pre post m
    (loadMovies (Header_Set "Content-Type" "application/json" σ)).2 hpre hm
  simp only [getMovie, loadMovies, Header_Set, hσ] at hsome ⊢
  rw [hsome]

theorem getMovie_movies (r : Request) (σ : World) : (getMovie r σ).movies = σ.movies := by
  by_cases h : ∃ m ∈ σ.movies, m.ID = mapIndex (mux_Vars r) "id"
  · obtain ⟨pre, m, post, hσ, hpre, hm⟩ := exists_first_match _ _ h
    rw [getMovie_present r σ pre post m hσ hpre hm]
    simp [Encode, Write_movies, loadMovies, Header_Set]
  · rw [getMovie_absent r σ (by simpa using h)]
    simp [http_Error, Write_movies, WriteHeader, Header_Set, Header_Del, loadMovies]

theorem deleteMovie_w (r : Request) (σ : World) :
    (deleteMovie r σ).w =
      (Encode (reflectMovies (deleteMovie r σ).movies)
        (Header_Set "Content-Type" "application/json" σ)).w := by
  simp only [deleteMovie, loadMovies, Encode, Write, WriteHeader, deleteMovie_loop_w]
  split <;> simp_all [deleteMovie_loop_w]

theorem deleteMovie_absent (r : Request) (σ : World)
    (h : ∀ m ∈ σ.movies, m.ID ≠ mapIndex (mux_Vars r) "id") :
    (deleteMovie r σ).movies = σ.movies := by
  simp only [deleteMovie, loadMovies, Encode, Write_movies]
  rw [deleteMovie_loop_absent _ _ _ _ (by simpa [Header_Set] using h)]
  rfl

theorem deleteMovie_present (r : Request) (σ : World) (pre post : List Movie) (m : Movie)
    (hσ : σ.movies = pre ++ m :: post)
    (hpre : ∀ x ∈ pre, x.ID ≠ mapIndex (mux_Vars r) "id")
    (hm : m.ID = mapIndex (mux_Vars r) "id") :
    (deleteMovie r σ).movies = pre ++ post := by
  simp only [deleteMovie, loadMovies, Encode, Write_movies]
  have := deleteMovie_loop_first (mux_Vars r) [] pre post m
    { movies := (Header_Set "Content-Type" "application/json" σ).movies,
      w := (Header_Set "Content-Type" "application/json" σ).w,
      trace := (Header_Set "Content-Type" "application/json" σ).trace ++ [Event.loadMovies] }
    (by simpa [Header_Set] using hσ) hpre hm
  simpa [Header_Set, hσ] using this

theorem getMovie_loop_trace (params : List (String × String)) (ms : List Movie) (σ τ : World)
    (h : getMovie_loop params ms σ = some τ) : ∃ extra, τ.trace = σ.trace ++ extra := by
  induction ms with
  | nil => simp [getMovie_loop] at h
  | cons m ms ih =>
    unfold getMovie_loop at h
    split at h
    · cases h
      exact ⟨_, Write_trace _ σ⟩
    · exact ih h

theorem deleteMovie_loop_trace (params : List (String × String)) (rest : List Movie)
    (index : Nat) (σ : World) :
    ∃ extra, (deleteMovie_loop params index rest σ).trace = σ.trace ++ extra := by
  induction rest generalizing index with
  | nil => exact ⟨[], by simp [deleteMovie_loop]⟩
  | cons m rest ih =>
    unfold deleteMovie_loop
    split
    · exact ⟨[.loadMovies, .loadMovies, .storeMovies], by simp [loadMovies, storeMovies]⟩
    · exact ih _

theorem getMovie_trace (r : Request) (σ : World) :
    ∃ rest, (getMovie r σ).trace =
      σ.trace ++ Event.headerSet "Content-Type" "application/json" :: rest := by
  cases hloop : getMovie_loop (mux_Vars r) σ.movies
      (loadMovies (Header_Set "Content-Type" "application/json" σ)).2 with
  | none =>
    have : getMovie r σ = http_Error "No movie found with the given ID" StatusNotFound
        (loadMovies (Header_Set "Content-Type" "application/json" σ)).2 := by
      simp only [getMovie, loadMovies, Header_Set] at hloop ⊢
      rw [hloop]
    rw [this]
    refine ⟨[.loadMovies, .headerDel "Content-Length",
      .headerSet "Content-Type" "text/plain; charset=utf-8",
      .headerSet "X-Content-Type-Options" "nosniff", .writeHeader StatusNotFound,
      .write (.line "No movie found with the given ID")], ?_⟩
    simp [http_Error, Write, WriteHeader, Header_Set, Header_Del, loadMovies]
  | some τ =>
    have : getMovie r σ = τ := by
      simp only [getMovie, loadMovies, Header_Set] at hloop ⊢
      rw [hloop]
    obtain ⟨extra, hextra⟩ := getMovie_loop_trace _ _ _ _ hloop
    rw [this, hextra]
    exact ⟨.loadMovies :: extra, by simp [loadMovies, Header_Set]⟩

theorem deleteMovie_trace (r : Request) (σ : World) :
    ∃ rest, (deleteMovie r σ).trace =
      σ.trace ++ Event.headerSet "Content-Type" "application/json" :: rest := by
  obtain ⟨extra, hextra⟩ := deleteMovie_loop_trace (mux_Vars r) σ.movies 0
    (loadMovies (Header_Set "Content-Type" "application/json" σ)).2
  simp only [deleteMovie, loadMovies, Encode, Write_trace, Header_Set] at hextra ⊢
  rw [hextra]
  exact ⟨_, by simp only [List.append_assoc, List.singleton_append]; rfl⟩

theorem serve_deleteMovie_w (ms : List Movie) (r : Request) :
    (serve deleteMovie ms r).w.status = some 200 ∧
    (serve deleteMovie ms r).w.body =
      [Chunk.json (Marshal (reflectMovies (serve deleteMovie ms r).movies))] := by
  have hw := deleteMovie_w r (World.fresh ms)
  have hst : (deleteMovie r (World.fresh ms)).w.status = some 200 := by
    rw [hw]; simp [Encode, Write_status, Header_Set, StatusOK]
  have hfin : serve deleteMovie ms r = deleteMovie r (World.fresh ms) := by
    simp [serve, finishRequest, hst]
  rw [hfin]
  refine ⟨hst, ?_⟩
  rw [hw]
  simp [Encode, Write_body, Header_Set]

theorem serve_deleteMovie_movies (ms : List Movie) (r : Request) :
    (serve deleteMovie ms r).movies =
      (deleteMovie r (World.fresh ms)).movies := by
  simp only [serve, finishRequest, WriteHeader]
  split <;> rfl

theorem MarshalElems_map (ms : List Movie) :
    MarshalElems (ms.map Movie.reflect) = ms.map (fun x => Marshal x.reflect) := by
  induction ms with
  | nil => rfl
  | cons m ms ih => simp [MarshalElems, ih]

theorem finishRequest_movies (σ : World) : (finishRequest σ).movies = σ.movies := by
  unfold finishRequest WriteHeader; split <;> rfl

theorem getMovies_movies (r : Request) (σ : World) : (getMovies r σ).movies = σ.movies := by
  simp [getMovies, Encode, Write_movies, loadMovies, Header_Set]

theorem deleteMovie_cases (r : Request) (σ : World) :
    ((∀ x ∈ σ.movies, x.ID ≠ mapIndex (mux_Vars r) "id") ∧ (deleteMovie r σ).movies = σ.movies) ∨
    (∃ pre m post, σ.movies = pre ++ m :: post ∧
      (∀ x ∈ pre, x.ID ≠ mapIndex (mux_Vars r) "id") ∧
      m.ID = mapIndex (mux_Vars r) "id" ∧
      (deleteMovie r σ).movies = pre ++ post) := by
  by_cases h : ∃ m ∈ σ.movies, m.ID = mapIndex (mux_Vars r) "id"
  · obtain ⟨pre, m, post, hms, hpre, hm⟩ := exists_first_match _ _ h
    exact Or.inr ⟨pre, m, post, hms, hpre, hm, deleteMovie_present r σ pre post m hms hpre hm⟩
  · have habs : ∀ x ∈ σ.movies, x.ID ≠ mapIndex (mux_Vars r) "id" := by simpa using h
    exact Or.inl ⟨habs, deleteMovie_absent r σ habs⟩

theorem deleteMovie_unique (r : Request) (σ : World) (h : UniqueIDs σ.movies) :
    UniqueIDs (deleteMovie r σ).movies ∧
    ∀ m ∈ (deleteMovie r σ).movies, m.ID ≠ mapIndex (mux_Vars r) "id" := by
  rcases deleteMovie_cases r σ with ⟨habs, heq⟩ | ⟨pre, m, post, hms, hpre, hm, heq⟩
  · rw [heq]; exact ⟨h, habs⟩
  · rw [heq]
    unfold UniqueIDs at h ⊢
    rw [hms] at h
    simp only [List.map_append, List.map_cons] at h ⊢
    have hsub : (List.map Movie.ID pre ++ List.map Movie.ID post).Sublist
        (List.map Movie.ID pre ++ m.ID :: List.map Movie.ID post) :=
      List.Sublist.append_left (List.sublist_cons_self _ _) _
    refine ⟨h.sublist hsub, ?_⟩
    intro x hx
    rcases List.mem_append.mp hx with hx | hx
    · exact hpre x hx
    · intro hxid
      have hnot : m.ID ∉ List.map Movie.ID post :=
        (List.nodup_cons.mp (List.Nodup.of_append_right h)).1
      exact hnot (List.mem_map.mpr ⟨x, hx, by rw [hxid, hm]⟩)

theorem Header_Get_Header_Set (key value : String) (σ : World) :
    Header_Get key (Header_Set key value σ) = value := by
  simp [Header_Get, Header_Set]

theorem Header_Get_Write (key : String) (c : Chunk) (σ : World) :
    Header_Get key (Write c σ) = Header_Get key σ := by
  simp [Header_Get, Write_header]

theorem Header_Get_loadMovies (key : String) (σ : World) :
    Header_Get key (loadMovies σ).2 = Header_Get key σ := rfl

theorem Header_Get_http_Error (msg : String) (code : Nat) (σ : World) :
    Header_Get "Content-Type" (http_Error msg code σ) = "text/plain; charset=utf-8" := by
  simp [Header_Get, http_Error, Write_header, WriteHeader, Header_Set, Header_Del]

theorem Header_Get_deleteMovie (r : Request) (σ : World) :
    Header_Get "Content-Type" (deleteMovie r σ) = "application/json" := by
  have hw := deleteMovie_w r σ
  unfold Header_Get
  rw [hw]
  simp [Encode, Write_header, Header_Set]

theorem getMovie_header (r : Request) (σ : World) :
    ((∃ m ∈ σ.movies, m.ID = mapIndex (mux_Vars r) "id") ∧
      Header_Get "Content-Type" (getMovie r σ) = "application/json") ∨
    ((∀ m ∈ σ.movies, m.ID ≠ mapIndex (mux_Vars r) "id") ∧
      Header_Get "Content-Type" (getMovie r σ) = "text/plain; charset=utf-8") := by
  by_cases h : ∃ m ∈ σ.movies, m.ID = mapIndex (mux_Vars r) "id"
  · obtain ⟨pre, m, post, hσ, hpre, hm⟩ := exists_first_match _ _ h
    refine Or.inl ⟨h, ?_⟩
    rw [getMovie_present r σ pre post m hσ hpre hm]
    simp only [Encode, Header_Get_Write, Header_Get_loadMovies, Header_Get_Header_Set]
  · have habs : ∀ m ∈ σ.movies, m.ID ≠ mapIndex (mux_Vars r) "id" := by simpa using h
    refine Or.inr ⟨habs, ?_⟩
    rw [getMovie_absent r σ habs]
    exact Header_Get_http_Error _ _ _

/-! ## The claims -/

/-- C1: for every store and every request whose id equals the ID of no record,
getMovie answers with status 404 and a body that is exactly the line
"No movie found with the given ID"; no JSON value is written. -/
theorem getMovie_absent_not_found (ms : List Movie) (r : Request)
    (h : ∀ m ∈ ms, m.ID ≠ mapIndex (mux_Vars r) "id") :
    (serve getMovie ms r).w.status = some 404 ∧
    (serve getMovie ms r).w.body = [Chunk.line "No movie found with the given ID"] ∧
    (∀ v, Chunk.json v ∉ (serve getMovie ms r).w.body) ∧
    (∀ v, Event.write (Chunk.json v) ∉ (serve getMovie ms r).trace) := by
  have hbody : (serve getMovie ms r).w.body = [Chunk.line "No movie found with the given ID"] := by
    simp only [serve]
    rw [getMovie_absent r _ h]
    simp [finishRequest, http_Error, Write, WriteHeader, Header_Set, Header_Del, loadMovies,
      StatusNotFound]
  refine ⟨?_, hbody, ?_, ?_⟩
  · simp only [serve]
    rw [getMovie_absent r _ h]
    simp [finishRequest, http_Error, Write, WriteHeader, Header_Set, Header_Del, loadMovies,
      StatusNotFound]
  · intro v
    rw [hbody]
    simp
  · intro v
    simp only [serve]
    rw [getMovie_absent r _ h]
    simp [finishRequest, http_Error, Write, WriteHeader, Header_Set, Header_Del, loadMovies,
      StatusNotFound]

theorem getMovie_absent_not_found_witness :
    (∀ m ∈ seeded, m.ID ≠ mapIndex (mux_Vars (requestFor "999")) "id") ∧
    (serve getMovie seeded (requestFor "999")).w.status = some 404 ∧
    (serve getMovie seeded (requestFor "999")).w.body =
      [Chunk.line "No movie found with the given ID"] ∧
    (∀ v, Chunk.json v ∉ (serve getMovie seeded (requestFor "999")).w.body) ∧
    (∀ v, Event.write (Chunk.json v) ∉ (serve getMovie seeded (requestFor "999")).trace) :=
  ⟨by decide, getMovie_absent_not_found seeded (requestFor "999") (by decide)⟩

/-- C2: for every store and every request whose id equals the ID of some
record, getMovie answers with status 200 and a body that is exactly the
encoding of the first record, in sequence order, whose ID equals the id; on
the seeded store and id "1" that is the seed record with id "1". -/
theorem getMovie_present_first_match (ms : List Movie) (r : Request)
    (h : ∃ m ∈ ms, m.ID = mapIndex (mux_Vars r) "id") :
    (serve getMovie ms r).w.status = some 200 ∧
    (∃ pre m post, ms = pre ++ m :: post ∧
      (∀ x ∈ pre, x.ID ≠ mapIndex (mux_Vars r) "id") ∧
      m.ID = mapIndex (mux_Vars r) "id" ∧
      (serve getMovie ms r).w.body = [Chunk.json (Marshal m.reflect)]) ∧
    (serve getMovie seeded (requestFor "1")).w.body =
      [Chunk.json (Marshal (Movie.reflect
        { ID := "1", ISBN := "12345678", Title := "Movie One",
          Director := some { Firstname := "John", Lastname := "Doe" } }))] := by
  obtain ⟨pre, m, post, hms, hpre, hm⟩ := exists_first_match _ _ h
  refine ⟨?_, ⟨pre, m, post, hms, hpre, hm, ?_⟩, rfl⟩
  · simp only [serve]
    rw [getMovie_present r _ pre post m hms hpre hm]
    simp [finishRequest, Encode, Write, WriteHeader, Header_Set, loadMovies, StatusOK]
  · simp only [serve]
    rw [getMovie_present r _ pre post m hms hpre hm]
    simp [finishRequest, Encode, Write, WriteHeader, Header_Set, loadMovies, StatusOK]

theorem getMovie_present_first_match_witness :
    (∃ m ∈ seeded, m.ID = mapIndex (mux_Vars (requestFor "2")) "id") ∧
    (serve getMovie seeded (requestFor "2")).w.status = some 200 ∧
    (∃ pre m post, seeded = pre ++ m :: post ∧
      (∀ x ∈ pre, x.ID ≠ mapIndex (mux_Vars (requestFor "2")) "id") ∧
      m.ID = mapIndex (mux_Vars (requestFor "2")) "id" ∧
      (serve getMovie seeded (requestFor "2")).w.body = [Chunk.json (Marshal m.reflect)]) ∧
    (serve getMovie seeded (requestFor "1")).w.body =
      [Chunk.json (Marshal (Movie.reflect
        { ID := "1", ISBN := "12345678", Title := "Movie One",
          Director := some { Firstname := "John", Lastname := "Doe" } }))] :=
  ⟨by decide, getMovie_present_first_match seeded (requestFor "2") (by decide)⟩

/-- C3: after deleteMovie the store is the previous sequence with the first
record whose ID equals the id spliced out (everything before and after it
kept in order, exactly one record gone), or the previous sequence itself when
no record matches; the response is status 200 with the encoding of the
remaining sequence.  Deleting "1" from the seeded store and then listing
returns only the record with id "2". -/
theorem deleteMovie_removes_first_match (ms : List Movie) (r : Request) :
    (((∀ x ∈ ms, x.ID ≠ mapIndex (mux_Vars r) "id") ∧ (serve deleteMovie ms r).movies = ms) ∨
      (∃ pre m post, ms = pre ++ m :: post ∧
        (∀ x ∈ pre, x.ID ≠ mapIndex (mux_Vars r) "id") ∧
        m.ID = mapIndex (mux_Vars r) "id" ∧
        (serve deleteMovie ms r).movies = pre ++ post ∧
        (serve deleteMovie ms r).movies.length + 1 = ms.length)) ∧
    (serve deleteMovie ms r).w.status = some 200 ∧
    (serve deleteMovie ms r).w.body =
      [Chunk.json (Marshal (reflectMovies (serve deleteMovie ms r).movies))] ∧
    (serve getMovies (serve deleteMovie seeded (requestFor "1")).movies
        { vars := [], body := "" }).w.body =
      [Chunk.json (Marshal (reflectMovies
        [{ ID := "2", ISBN := "87654321", Title := "Movie Two",
           Director := some { Firstname := "Jane", Lastname := "Doe" } }]))] := by
  refine ⟨?_, (serve_deleteMovie_w ms r).1, (serve_deleteMovie_w ms r).2, rfl⟩
  rw [serve_deleteMovie_movies]
  by_cases h : ∃ m ∈ ms, m.ID = mapIndex (mux_Vars r) "id"
  · obtain ⟨pre, m, post, hms, hpre, hm⟩ := exists_first_match _ _ h
    right
    have hdel := deleteMovie_present r (World.fresh ms) pre post m hms hpre hm
    refine ⟨pre, m, post, hms, hpre, hm, hdel, ?_⟩
    rw [hdel, hms]
    simp
    omega
  · left
    have habs : ∀ x ∈ ms, x.ID ≠ mapIndex (mux_Vars r) "id" := by simpa using h
    exact ⟨habs, deleteMovie_absent r (World.fresh ms) habs⟩

/-- C4: when the id equals the ID of no record, deleteMovie leaves the store
as it was, answers with status 200 (not 404), and its body is the encoding of
the full unchanged sequence. -/
theorem deleteMovie_absent_noop (ms : List Movie) (r : Request)
    (h : ∀ m ∈ ms, m.ID ≠ mapIndex (mux_Vars r) "id") :
    (serve deleteMovie ms r).movies = ms ∧
    (serve deleteMovie ms r).w.status = some 200 ∧
    (serve deleteMovie ms r).w.status ≠ some 404 ∧
    (serve deleteMovie ms r).w.body = [Chunk.json (Marshal (reflectMovies ms))] := by
  have hmov : (serve deleteMovie ms r).movies = ms := by
    rw [serve_deleteMovie_movies]
    exact deleteMovie_absent r _ h
  have hw := serve_deleteMovie_w ms r
  refine ⟨hmov, hw.1, ?_, ?_⟩
  · rw [hw.1]; decide
  · rw [hw.2, hmov]

theorem deleteMovie_absent_noop_witness :
    (∀ m ∈ seeded, m.ID ≠ mapIndex (mux_Vars (requestFor "999")) "id") ∧
    (serve deleteMovie seeded (requestFor "999")).movies = seeded ∧
    (serve deleteMovie seeded (requestFor "999")).w.status = some 200 ∧
    (serve deleteMovie seeded (requestFor "999")).w.status ≠ some 404 ∧
    (serve deleteMovie seeded (requestFor "999")).w.body =
      [Chunk.json (Marshal (reflectMovies seeded))] :=
  ⟨by decide, deleteMovie_absent_noop seeded (requestFor "999") (by decide)⟩

/-- C5: the store at startup is exactly the two seed records in insertion
order; getMovies on any store answers with status 200 and the encoding of the
full sequence in its current order, so right after startup it returns those
two records. -/
theorem seeded_store_and_getMovies (ms : List Movie) (r : Request) :
    seeded =
      [{ ID := "1", ISBN := "12345678", Title := "Movie One",
         Director := some { Firstname := "John", Lastname := "Doe" } },
       { ID := "2", ISBN := "87654321", Title := "Movie Two",
         Director := some { Firstname := "Jane", Lastname := "Doe" } }] ∧
    (serve getMovies ms r).w.status = some 200 ∧
    (serve getMovies ms r).w.body = [Chunk.json (Marshal (reflectMovies ms))] ∧
    (serve getMovies seeded r).w.body =
      [Chunk.json (Marshal (reflectMovies
        [{ ID := "1", ISBN := "12345678", Title := "Movie One",
           Director := some { Firstname := "John", Lastname := "Doe" } },
         { ID := "2", ISBN := "87654321", Title := "Movie Two",
           Director := some { Firstname := "Jane", Lastname := "Doe" } }]))] := by
  refine ⟨rfl, ?_, ?_, ?_⟩ <;>
    simp [serve, finishRequest, getMovies, Encode, Write, WriteHeader, Header_Set, loadMovies,
      StatusOK]
  rfl

/-- C6: createMovie and updateMovie do nothing but set the Content-Type
header: store, status and body are as they were on entry and the one effect is
the header assignment; served on a fresh writer this gives an unchanged
store, an empty body and status 200. -/
theorem createMovie_updateMovie_stub (ms : List Movie) (r : Request) (σ : World) :
    ((createMovie r σ).movies = σ.movies ∧ (createMovie r σ).w.body = σ.w.body ∧
      (createMovie r σ).w.status = σ.w.status ∧
      (createMovie r σ).trace = σ.trace ++ [Event.headerSet "Content-Type" "application/json"]) ∧
    ((updateMovie r σ).movies = σ.movies ∧ (updateMovie r σ).w.body = σ.w.body ∧
      (updateMovie r σ).w.status = σ.w.status ∧
      (updateMovie r σ).trace = σ.trace ++ [Event.headerSet "Content-Type" "application/json"]) ∧
    ((serve createMovie ms r).movies = ms ∧ (serve createMovie ms r).w.body = [] ∧
      (serve createMovie ms r).w.status = some 200 ∧
      (serve createMovie ms r).w.header = [("Content-Type", "application/json")]) ∧
    ((serve updateMovie ms r).movies = ms ∧ (serve updateMovie ms r).w.body = [] ∧
      (serve updateMovie ms r).w.status = some 200 ∧
      (serve updateMovie ms r).w.header = [("Content-Type", "application/json")]) := by
  simp [serve, finishRequest, createMovie, updateMovie, WriteHeader, Header_Set, StatusOK]

/-- C7: in each of the five handlers the first effect is the assignment of
application/json to the Content-Type header: it heads what the handler adds to
the trace, so every read of the store and every write of status or body comes
after it; the state it produces holds application/json under Content-Type
with store, status and body still as on entry.  On return the header map holds
application/json under Content-Type for createMovie, getMovies, updateMovie,
deleteMovie and for getMovie when the id is found; when the id is not found
http.Error has since replaced it by text/plain; charset=utf-8, and the trace
still begins with the application/json assignment. -/
theorem handlers_set_content_type_first (r : Request) (σ : World) (ms : List Movie) :
    ((∃ rest, (createMovie r σ).trace =
        σ.trace ++ Event.headerSet "Content-Type" "application/json" :: rest) ∧
      (∃ rest, (getMovies r σ).trace =
        σ.trace ++ Event.headerSet "Content-Type" "application/json" :: rest) ∧
      (∃ rest, (getMovie r σ).trace =
        σ.trace ++ Event.headerSet "Content-Type" "application/json" :: rest) ∧
      (∃ rest, (updateMovie r σ).trace =
        σ.trace ++ Event.headerSet "Content-Type" "application/json" :: rest) ∧
      (∃ rest, (deleteMovie r σ).trace =
        σ.trace ++ Event.headerSet "Content-Type" "application/json" :: rest)) ∧
    (Header_Get "Content-Type" (Header_Set "Content-Type" "application/json" σ) =
        "application/json" ∧
      (Header_Set "Content-Type" "application/json" σ).movies = σ.movies ∧
      (Header_Set "Content-Type" "application/json" σ).w.status = σ.w.status ∧
      (Header_Set "Content-Type" "application/json" σ).w.body = σ.w.body ∧
      (Header_Set "Content-Type" "application/json" σ).trace =
        σ.trace ++ [Event.headerSet "Content-Type" "application/json"]) ∧
    (Header_Get "Content-Type" (createMovie r σ) = "application/json" ∧
      Header_Get "Content-Type" (getMovies r σ) = "application/json" ∧
      Header_Get "Content-Type" (updateMovie r σ) = "application/json" ∧
      Header_Get "Content-Type" (deleteMovie r σ) = "application/json" ∧
      (((∃ m ∈ σ.movies, m.ID = mapIndex (mux_Vars r) "id") ∧
          Header_Get "Content-Type" (getMovie r σ) = "application/json") ∨
        ((∀ m ∈ σ.movies, m.ID ≠ mapIndex (mux_Vars r) "id") ∧
          Header_Get "Content-Type" (getMovie r σ) = "text/plain; charset=utf-8"))) ∧
    ((serve createMovie ms r).w.header = [("Content-Type", "application/json")] ∧
      (serve getMovies ms r).w.header = [("Content-Type", "application/json")] ∧
      (serve updateMovie ms r).w.header = [("Content-Type", "application/json")] ∧
      (serve deleteMovie ms r).w.header = [("Content-Type", "application/json")] ∧
      Header_Get "Content-Type" (serve deleteMovie ms r) = "application/json" ∧
      Header_Get "Content-Type" (serve getMovies ms r) = "application/json") := by
  refine ⟨⟨⟨[], rfl⟩, ?_, getMovie_trace r σ, ⟨[], rfl⟩, deleteMovie_trace r σ⟩,
    ⟨Header_Get_Header_Set _ _ σ, rfl, rfl, rfl, rfl⟩,
    ⟨Header_Get_Header_Set _ _ σ, ?_, Header_Get_Header_Set _ _ σ, Header_Get_deleteMovie r σ,
      getMovie_header r σ⟩, ?_⟩
  · exact ⟨_, by
      simp only [getMovies, loadMovies, Encode, Write_trace, Header_Set, List.append_assoc,
        List.singleton_append]; rfl⟩
  · simp only [getMovies, Encode, Header_Get_Write, Header_Get_loadMovies]
    exact Header_Get_Header_Set _ _ σ
  · have hdel : (serve deleteMovie ms r).w.header = [("Content-Type", "application/json")] := by
      have hst := (serve_deleteMovie_w ms r).1
      have hfin : serve deleteMovie ms r = deleteMovie r (World.fresh ms) := by
        have hw := deleteMovie_w r (World.fresh ms)
        have : (deleteMovie r (World.fresh ms)).w.status = some 200 := by
          rw [hw]; simp [Encode, Write_status, Header_Set, StatusOK]
        simp [serve, finishRequest, this]
      rw [hfin, deleteMovie_w]
      simp [Encode, Write_header, Header_Set]
    have hget : (serve getMovies ms r).w.header = [("Content-Type", "application/json")] := by
      simp [serve, finishRequest, getMovies, Encode, Write, WriteHeader, Header_Set, loadMovies,
        StatusOK]
    refine ⟨?_, hget, ?_, hdel, ?_, ?_⟩
    · simp [serve, finishRequest, createMovie, WriteHeader, Header_Set, StatusOK]
    · simp [serve, finishRequest, updateMovie, WriteHeader, Header_Set, StatusOK]
    · simp [Header_Get, hdel]
    · simp [Header_Get, hget]

/-- C8: the encoding of a Movie is a JSON object with exactly the keys "id",
"isbn", "title", "director", in that order; the first three hold the ID, ISBN
and Title as JSON strings, and "director" holds null for a movie without
director and otherwise an object with exactly the keys "firstname" and
"lastname"; the body of getMovies and of deleteMovie is the JSON array of
these objects in sequence order. -/
theorem movie_json_shape (m : Movie) (ms : List Movie) (r : Request) :
    Marshal m.reflect =
      JSON.obj [("id", JSON.str m.ID), ("isbn", JSON.str m.ISBN), ("title", JSON.str m.Title),
        ("director",
          match m.Director with
          | none => JSON.null
          | some d =>
            JSON.obj [("firstname", JSON.str d.Firstname), ("lastname", JSON.str d.Lastname)])] ∧
    Marshal (reflectMovies ms) = JSON.arr (ms.map (fun x => Marshal x.reflect)) ∧
    (serve getMovies ms r).w.body =
      [Chunk.json (JSON.arr (ms.map (fun x => Marshal x.reflect)))] ∧
    (serve deleteMovie ms r).w.body =
      [Chunk.json (JSON.arr ((serve deleteMovie ms r).movies.map (fun x => Marshal x.reflect)))] := by
  have harr : ∀ l : List Movie,
      Marshal (reflectMovies l) = JSON.arr (l.map (fun x => Marshal x.reflect)) := by
    intro l
    simp [reflectMovies, Marshal, MarshalElems_map]
  refine ⟨?_, harr ms, ?_, ?_⟩
  · cases hd : m.Director <;>
      simp [Movie.reflect, Director.reflect, Marshal, MarshalFields, hd]
  · rw [← harr]
    simp [serve, finishRequest, getMovies, Encode, Write, WriteHeader, Header_Set, loadMovies,
      StatusOK]
  · rw [← harr]
    exact (serve_deleteMovie_w ms r).2

/-- C9: the seeded store has pairwise distinct IDs; from a store with pairwise
distinct IDs every handler leaves a store with pairwise distinct IDs; and
after deleteMovie for an id no record with that ID remains, so getMovie for
the same id then answers 404 and a second deleteMovie changes nothing. -/
theorem unique_ids_invariant (ms : List Movie) (r : Request) (h : UniqueIDs ms) :
    UniqueIDs seeded ∧
    UniqueIDs (serve createMovie ms r).movies ∧
    UniqueIDs (serve getMovies ms r).movies ∧
    UniqueIDs (serve getMovie ms r).movies ∧
    UniqueIDs (serve updateMovie ms r).movies ∧
    UniqueIDs (serve deleteMovie ms r).movies ∧
    (∀ m ∈ (serve deleteMovie ms r).movies, m.ID ≠ mapIndex (mux_Vars r) "id") ∧
    (serve getMovie (serve deleteMovie ms r).movies r).w.status = some 404 ∧
    (serve deleteMovie (serve deleteMovie ms r).movies r).movies =
      (serve deleteMovie ms r).movies := by
  have hdel := deleteMovie_unique r (World.fresh ms) h
  have hgone : ∀ m ∈ (serve deleteMovie ms r).movies, m.ID ≠ mapIndex (mux_Vars r) "id" := by
    rw [serve_deleteMovie_movies]; exact hdel.2
  refine ⟨by decide, ?_, ?_, ?_, ?_, ?_, hgone, ?_, ?_⟩
  · simpa [serve, finishRequest_movies, createMovie, Header_Set] using h
  · simpa [serve, finishRequest_movies, getMovies_movies] using h
  · simpa [serve, finishRequest_movies, getMovie_movies] using h
  · simpa [serve, finishRequest_movies, updateMovie, Header_Set] using h
  · rw [serve_deleteMovie_movies]; exact hdel.1
  · have hget := getMovie_absent r (World.fresh (serve deleteMovie ms r).movies) hgone
    show (finishRequest (getMovie r (World.fresh (serve deleteMovie ms r).movies))).w.status = _
    rw [hget]
    simp [finishRequest, http_Error, Write, WriteHeader, Header_Set, Header_Del, loadMovies,
      StatusNotFound]
  · rw [serve_deleteMovie_movies (serve deleteMovie ms r).movies]
    exact deleteMovie_absent r _ hgone

theorem unique_ids_invariant_witness :
    UniqueIDs seeded ∧
    UniqueIDs seeded ∧
    UniqueIDs (serve createMovie seeded (requestFor "1")).movies ∧
    UniqueIDs (serve getMovies seeded (requestFor "1")).movies ∧
    UniqueIDs (serve getMovie seeded (requestFor "1")).movies ∧
    UniqueIDs (serve updateMovie seeded (requestFor "1")).movies ∧
    UniqueIDs (serve deleteMovie seeded (requestFor "1")).movies ∧
    (∀ m ∈ (serve deleteMovie seeded (requestFor "1")).movies,
      m.ID ≠ mapIndex (mux_Vars (requestFor "1")) "id") ∧
    (serve getMovie (serve deleteMovie seeded (requestFor "1")).movies
      (requestFor "1")).w.status = some 404 ∧
    (serve deleteMovie (serve deleteMovie seeded (requestFor "1")).movies
      (requestFor "1")).movies = (serve deleteMovie seeded (requestFor "1")).movies :=
  ⟨by decide, unique_ids_invariant seeded (requestFor "1") (by decide)⟩

/-- C10: getMovies and getMovie (id found or not) leave the store exactly as it
was, as do createMovie and updateMovie; deleteMovie is the only handler that
can change it, and it never makes it longer. -/
theorem read_handlers_keep_store (r : Request) (σ : World) (ms : List Movie) :
    (getMovies r σ).movies = σ.movies ∧
    (getMovie r σ).movies = σ.movies ∧
    (createMovie r σ).movies = σ.movies ∧
    (updateMovie r σ).movies = σ.movies ∧
    (deleteMovie r σ).movies.length ≤ σ.movies.length ∧
    (serve getMovies ms r).movies = ms ∧
    (serve getMovie ms r).movies = ms ∧
    (serve deleteMovie ms r).movies.length ≤ ms.length := by
  have hlen : ∀ τ : World, (deleteMovie r τ).movies.length ≤ τ.movies.length := by
    intro τ
    rcases deleteMovie_cases r τ with ⟨_, heq⟩ | ⟨pre, m, post, hms, _, _, heq⟩
    · rw [heq]
    · rw [heq, hms]; simp
  refine ⟨getMovies_movies r σ, getMovie_movies r σ, rfl, rfl, hlen σ, ?_, ?_, ?_⟩
  · simp [serve, finishRequest_movies, getMovies_movies]
  · simp [serve, finishRequest_movies, getMovie_movies]
  · rw [serve_deleteMovie_movies]; simpa using hlen (World.fresh ms)

end MoviesCrudApi
